import Mathlib

/-!
Shallow embedding of the actor core of `go-middleware-registry`
(`registry/actors.go`): the per-repository worker (`RepoActor`), the
directory actor (`RegistryActor`) and the dependency coordinator
(`CoordinatorActor`), together with theorems settling the behavioural
claims about them.

Modelling conventions:
* Goroutine mailboxes are elided; each actor's message loop becomes a pure
  step function `state → message → state × emitted events`, matching the
  `switch` in the corresponding `Start` loop, since each loop processes one
  message at a time.
* Filesystem calls (`os.WriteFile`, `os.MkdirAll`) are external
  collaborators; their success or failure is an input (`Env`).  The Go code
  discards these errors except for logging, and the embedding reflects
  exactly that: the returned log list depends on `Env`, the state update
  does not.
* Go maps are unordered; `RegistryActor.Repos`, `CoordinatorActor.Graph`
  and `CoordinatorActor.Completed` are modelled as association lists /
  membership lists.  Where Go map iteration order matters
  (`handleCompletion`'s scan), theorems quantify over permutations of the
  entry list.
* The nil-pointer dereference that `handleCompletion` performs when the
  graph names an unregistered repository is modelled by returning `none`
  (a Go panic aborts the process).
-/

namespace GoMiddlewareRegistry

/-- State owned by a `RepoActor` (`registry/actors.go`): the mutable fields
`Name`, `Path`, `Active`, `IsDocker`, `HasPipeline`.  The mailbox and wait
group are elided (see module conventions). -/
structure RepoActor where
  Name : String
  Path : String
  Active : Bool
  IsDocker : Bool
  HasPipeline : Bool
deriving Repr, DecidableEq

/-- `NewRepoActor(name, path, wg)`: `Active` is set `true` explicitly;
`IsDocker` and `HasPipeline` are Go zero values, i.e. `false`. -/
def NewRepoActor (name path : String) : RepoActor :=
  { Name := name, Path := path, Active := true, IsDocker := false, HasPipeline := false }

/-- Messages a `RepoActor` handles in its `Start` loop. -/
inductive RepoMsg where
  | toggleRepo
  | configureDocker
  | configurePipeline
  | initRepo
  | reportCompletion (name : String)
deriving Repr, DecidableEq

/-- Outcomes of the external filesystem collaborator calls made by the
worker's helpers: `os.WriteFile` of the Dockerfile, `os.MkdirAll` of the
workflows directory, and `os.WriteFile` of `pipeline.yml`. -/
structure Env where
  dockerWriteOk : Bool
  mkdirOk : Bool
  pipelineWriteOk : Bool
deriving Repr, DecidableEq

/-- External collaborator invocations the worker requests: one per helper
call (`addDockerfile`, `setupPipeline`, `initializeRepo`). -/
inductive Effect where
  | dockerfileWrite (path : String)
  | pipelineSetup (path : String)
  | repoInit (name : String)
deriving Repr, DecidableEq

/-- Error log lines emitted by the worker's helpers when a collaborator
call fails (`fmt.Printf("Error ...")` in `addDockerfile` /
`setupPipeline`). -/
inductive LogEvent where
  | errorAddingDockerfile (name : String)
  | errorCreatingPipelineDir (name : String)
  | errorSettingUpPipeline (name : String)
deriving Repr, DecidableEq

/-- `filepath.Join(r.Path, "Dockerfile")`. -/
def dockerfilePath (r : RepoActor) : String := r.Path ++ "/Dockerfile"

/-- `filepath.Join(r.Path, ".github", "workflows", "pipeline.yml")`. -/
def pipelinePath (r : RepoActor) : String := r.Path ++ "/.github/workflows/pipeline.yml"

/-- `RepoActor.addDockerfile`: writes a Dockerfile at the repo's path.  A
write error is only logged; the function has no return value, so the
caller cannot observe failure. -/
def addDockerfile (env : Env) (r : RepoActor) : List Effect × List LogEvent :=
  ([.dockerfileWrite (dockerfilePath r)],
   if env.dockerWriteOk then [] else [.errorAddingDockerfile r.Name])

/-- `RepoActor.setupPipeline`: `MkdirAll` then `WriteFile`; a `MkdirAll`
failure is logged and short-circuits the write, a write failure is logged.
Again no error reaches the caller. -/
def setupPipeline (env : Env) (r : RepoActor) : List Effect × List LogEvent :=
  ([.pipelineSetup (pipelinePath r)],
   if env.mkdirOk then
     (if env.pipelineWriteOk then [] else [.errorSettingUpPipeline r.Name])
   else [.errorCreatingPipelineDir r.Name])

/-- One iteration of the `RepoActor.Start` message loop: the `switch` over
the received message.  Note that in the `ConfigureDocker` /
`ConfigurePipeline` cases the guard is set `true` unconditionally after
the helper call — the helper's collaborator outcome (`env`) influences
only the logs. -/
def repoReceive (env : Env) (r : RepoActor) :
    RepoMsg → RepoActor × List Effect × List LogEvent
  | .toggleRepo => ({ r with Active := !r.Active }, [], [])
  | .configureDocker =>
      if r.Active && !r.IsDocker then
        let (effs, logs) := addDockerfile env r
        ({ r with IsDocker := true }, effs, logs)
      else (r, [], [])
  | .configurePipeline =>
      if r.Active && !r.HasPipeline then
        let (effs, logs) := setupPipeline env r
        ({ r with HasPipeline := true }, effs, logs)
      else (r, [], [])
  | .initRepo =>
      if r.Active then (r, [.repoInit r.Name], []) else (r, [], [])
  | .reportCompletion _ => (r, [], [])

/-- Number of Dockerfile-materialization collaborator invocations in an
effect list. -/
def countDockerWrites (l : List Effect) : Nat :=
  (l.filter fun e => match e with | .dockerfileWrite _ => true | _ => false).length

/-- Number of pipeline-materialization collaborator invocations in an
effect list. -/
def countPipelineSetups (l : List Effect) : Nat :=
  (l.filter fun e => match e with | .pipelineSetup _ => true | _ => false).length

/-- Concrete worker used in counterexamples: active, neither guard set. -/
def freshRepo : RepoActor := NewRepoActor "repoA" "/tmp/repoA"

/-- Environment in which every collaborator call fails. -/
def failEnv : Env := { dockerWriteOk := false, mkdirOk := false, pipelineWriteOk := false }

/-- C1 counterexample: on an active worker with `IsDocker = false`,
processing `ConfigureDocker` while the Dockerfile write FAILS still sets
the guard `IsDocker` to `true` (the error is only logged), contradicting
the claim that the guard is set only if the materialization succeeds. -/
theorem repo_guard_set_despite_failure :
    failEnv.dockerWriteOk = false ∧
    freshRepo.Active = true ∧ freshRepo.IsDocker = false ∧
    (repoReceive failEnv freshRepo .configureDocker).1.IsDocker = true ∧
    (repoReceive failEnv freshRepo .configureDocker).2.2
      = [.errorAddingDockerfile "repoA"] := by
  refine ⟨rfl, rfl, rfl, rfl, rfl⟩

/-- C1 (amended): for an active worker with the relevant guard false,
processing `ConfigureDocker` (resp. `ConfigurePipeline`) sets the guard
`true` REGARDLESS of the collaborator's outcome: the Go helper swallows
the error, and the `Start` loop assigns the guard unconditionally after
the call.  A failure is only logged, so a retry does not re-attempt the
effect. -/
theorem repo_guard_set_unconditionally (env : Env) (r : RepoActor)
    (hA : r.Active = true) :
    (r.IsDocker = false →
      (repoReceive env r .configureDocker).1.IsDocker = true ∧
      (repoReceive env r .configureDocker).2.1 = [.dockerfileWrite (dockerfilePath r)]) ∧
    (r.HasPipeline = false →
      (repoReceive env r .configurePipeline).1.HasPipeline = true ∧
      (repoReceive env r .configurePipeline).2.1 = [.pipelineSetup (pipelinePath r)]) := by
  constructor
  · intro hD
    simp [repoReceive, addDockerfile, hA, hD]
  · intro hP
    simp [repoReceive, setupPipeline, hA, hP]

/-- Witness for C1 (amended) at a concrete worker and environment. -/
theorem repo_guard_set_unconditionally_witness :
    (repoReceive failEnv freshRepo .configureDocker).1.IsDocker = true :=
  ((repo_guard_set_unconditionally failEnv freshRepo rfl).1 rfl).1

/-- C7: starting from an active worker with the docker guard false, two
consecutive `ConfigureDocker` messages (under arbitrary collaborator
outcomes each time) invoke the Dockerfile materialization exactly once in
total, and the guard is true after both; symmetrically for
`ConfigurePipeline` and `HasPipeline`. -/
theorem repo_configure_idempotent (env1 env2 : Env) (r : RepoActor)
    (hA : r.Active = true) :
    (r.IsDocker = false →
      countDockerWrites
          ((repoReceive env1 r .configureDocker).2.1 ++
           (repoReceive env2 (repoReceive env1 r .configureDocker).1 .configureDocker).2.1)
        = 1 ∧
      (repoReceive env2 (repoReceive env1 r .configureDocker).1 .configureDocker).1.IsDocker
        = true) ∧
    (r.HasPipeline = false →
      countPipelineSetups
          ((repoReceive env1 r .configurePipeline).2.1 ++
           (repoReceive env2 (repoReceive env1 r .configurePipeline).1 .configurePipeline).2.1)
        = 1 ∧
      (repoReceive env2 (repoReceive env1 r .configurePipeline).1
          .configurePipeline).1.HasPipeline = true) := by
  constructor
  · intro hD
    simp [repoReceive, addDockerfile, hA, hD, countDockerWrites]
  · intro hP
    simp [repoReceive, setupPipeline, hA, hP, countPipelineSetups]

/-- Witness for C7 at a concrete worker and environments. -/
theorem repo_configure_idempotent_witness :
    countDockerWrites
        ((repoReceive failEnv freshRepo .configureDocker).2.1 ++
         (repoReceive failEnv (repoReceive failEnv freshRepo .configureDocker).1
            .configureDocker).2.1) = 1 :=
  ((repo_configure_idempotent failEnv failEnv freshRepo rfl).1 rfl).1

/-- C8: a worker whose `Active` flag is false treats `ConfigureDocker` and
`ConfigurePipeline` as silent no-ops: no collaborator invocation, no log,
and the state (every field) is returned unchanged. -/
theorem repo_inactive_noop (env : Env) (r : RepoActor) (m : RepoMsg)
    (hA : r.Active = false)
    (hm : m = .configureDocker ∨ m = .configurePipeline) :
    repoReceive env r m = (r, [], []) := by
  rcases hm with rfl | rfl <;> simp [repoReceive, hA]

/-- Witness for C8 at a concrete inactive worker. -/
theorem repo_inactive_noop_witness :
    repoReceive failEnv { freshRepo with Active := false } .configureDocker
      = ({ freshRepo with Active := false }, [], []) :=
  repo_inactive_noop failEnv { freshRepo with Active := false } .configureDocker rfl
    (Or.inl rfl)

/-- The `RegistryActor`'s directory `Repos map[string]*RepoActor`, as an
association list (Go maps are unordered; list order is a modelling
artifact and no theorem depends on it).  The mailbox, wait group and mutex
are elided: the mutex makes each operation atomic, which the step
functions below are by construction. -/
structure RegistryActor where
  Repos : List (String × RepoActor)
deriving Repr, DecidableEq

/-- Go map read `r.Repos[name]` (comma-ok form). -/
def lookupRepo : List (String × RepoActor) → String → Option RepoActor
  | [], _ => none
  | (k, v) :: rest, name => if k = name then some v else lookupRepo rest name

/-- Messages the `RegistryActor.Start` loop dispatches on (the `ScanDir`
case delegates to the filesystem collaborator and re-sends `AddRepo`; it
is outside the claims and elided). -/
inductive RegMsg where
  | addRepo (name path : String)
  | removeRepo (name : String)
  | toggleRepo (name : String)
  | configureRepo (name : String)
deriving Repr, DecidableEq

/-- Observable atomic actions the registry performs, in program order:
worker startup, directory mutation, mailbox sends and closes, and log
lines. -/
inductive RegEvent where
  | startWorker (name : String)
  | register (name : String)
  | unregister (name : String)
  | closeMailbox (name : String)
  | sendToRepo (name : String) (m : RepoMsg)
  | logAdded (name : String)
  | logRemoved (name : String)
  | logDuplicate (name : String)
  | logNotFound (name : String)
deriving Repr, DecidableEq

/-- `RegistryActor.addRepo`: reject duplicates; otherwise build the worker
(`NewRepoActor`), start it, record it in the directory, log, and only then
send it `InitRepo`. -/
def addRepo (st : RegistryActor) (name path : String) : RegistryActor × List RegEvent :=
  match lookupRepo st.Repos name with
  | some _ => (st, [.logDuplicate name])
  | none =>
      ({ Repos := (name, NewRepoActor name path) :: st.Repos },
       [.startWorker name, .register name, .logAdded name, .sendToRepo name .initRepo])

/-- `RegistryActor.removeRepo`: if present, send a final
`ReportCompletion`, close the worker's mailbox, delete the directory
entry, log; otherwise log not-found. -/
def removeRepo (st : RegistryActor) (name : String) : RegistryActor × List RegEvent :=
  match lookupRepo st.Repos name with
  | some _ =>
      ({ Repos := st.Repos.filter fun p => p.1 ≠ name },
       [.sendToRepo name (.reportCompletion name), .closeMailbox name,
        .unregister name, .logRemoved name])
  | none => (st, [.logNotFound name])

/-- `RegistryActor.toggleRepo`: route a `ToggleRepo` to the worker, or log
not-found. -/
def toggleRepo (st : RegistryActor) (name : String) : RegistryActor × List RegEvent :=
  match lookupRepo st.Repos name with
  | some _ => (st, [.sendToRepo name .toggleRepo])
  | none => (st, [.logNotFound name])

/-- `RegistryActor.configureRepo`: route `ConfigureDocker` then
`ConfigurePipeline` to the worker, or log not-found. -/
def configureRepo (st : RegistryActor) (name : String) : RegistryActor × List RegEvent :=
  match lookupRepo st.Repos name with
  | some _ =>
      (st, [.sendToRepo name .configureDocker, .sendToRepo name .configurePipeline])
  | none => (st, [.logNotFound name])

/-- One iteration of the `RegistryActor.Start` loop (the `switch`). -/
def registryReceive (st : RegistryActor) : RegMsg → RegistryActor × List RegEvent
  | .addRepo name path => addRepo st name path
  | .removeRepo name => removeRepo st name
  | .toggleRepo name => toggleRepo st name
  | .configureRepo name => configureRepo st name

/-- The registry state after draining a message sequence. -/
def runRegistry (st : RegistryActor) : List RegMsg → RegistryActor
  | [] => st
  | m :: ms => runRegistry (registryReceive st m).1 ms

/-- The directory's key multiset. -/
def repoKeys (st : RegistryActor) : List String := st.Repos.map Prod.fst

theorem lookupRepo_eq_none_iff (l : List (String × RepoActor)) (name : String) :
    lookupRepo l name = none ↔ name ∉ l.map Prod.fst := by
  induction l with
  | nil => simp [lookupRepo]
  | cons p rest ih =>
      by_cases h : p.1 = name
      · simp [lookupRepo, h]
      · simp [lookupRepo, h, ih, Ne.symm h]

theorem lookupRepo_cons_self (rest : List (String × RepoActor)) (name : String)
    (r : RepoActor) : lookupRepo ((name, r) :: rest) name = some r := by
  simp [lookupRepo]

theorem lookupRepo_filter_ne (l : List (String × RepoActor)) (name : String) :
    lookupRepo (l.filter fun p => p.1 ≠ name) name = none := by
  rw [lookupRepo_eq_none_iff]
  intro hmem
  rcases List.mem_map.mp hmem with ⟨p, hp, hfst⟩
  rcases List.mem_filter.mp hp with ⟨-, hne⟩
  have hne' : p.1 ≠ name := by simpa using hne
  exact hne' hfst

theorem repoKeys_nodup_step (st : RegistryActor) (m : RegMsg)
    (h : (repoKeys st).Nodup) : (repoKeys (registryReceive st m).1).Nodup := by
  cases m with
  | addRepo name path =>
      cases hl : lookupRepo st.Repos name with
      | some r => simpa [registryReceive, addRepo, hl]
      | none =>
          have hnot := (lookupRepo_eq_none_iff st.Repos name).mp hl
          simp only [registryReceive, addRepo, hl]
          exact List.Nodup.cons (by simpa [repoKeys] using hnot) (by simpa [repoKeys] using h)
  | removeRepo name =>
      cases hl : lookupRepo st.Repos name with
      | some r =>
          simp only [registryReceive, removeRepo, hl, repoKeys]
          exact ((List.filter_sublist _).map Prod.fst).nodup (by simpa [repoKeys] using h)
      | none => simpa [registryReceive, removeRepo, hl]
  | toggleRepo name =>
      cases hl : lookupRepo st.Repos name with
      | some r => simpa [registryReceive, toggleRepo, hl]
      | none => simpa [registryReceive, toggleRepo, hl]
  | configureRepo name =>
      cases hl : lookupRepo st.Repos name with
      | some r => simpa [registryReceive, configureRepo, hl]
      | none => simpa [registryReceive, configureRepo, hl]

theorem repoKeys_nodup_run (ms : List RegMsg) (st : RegistryActor)
    (h : (repoKeys st).Nodup) : (repoKeys (runRegistry st ms)).Nodup := by
  induction ms generalizing st with
  | nil => simpa [runRegistry]
  | cons m ms ih => exact ih _ (repoKeys_nodup_step st m h)

/-- C4: (i) starting from a directory with no duplicate names (e.g. the
empty one `NewRegistryActor` builds), processing any command sequence
leaves the directory with at most one worker per name; (ii) an `AddRepo`
for a name already present changes nothing: the state (hence the original
worker and all its fields) is untouched, and the only event is the
duplicate log — in particular no `InitRepo` (or any other message) is sent
to anyone. -/
theorem registry_unique_and_duplicate_noop :
    (∀ (st : RegistryActor) (ms : List RegMsg), (repoKeys st).Nodup →
      (repoKeys (runRegistry st ms)).Nodup) ∧
    (∀ (st : RegistryActor) (name path : String) (r : RepoActor),
      lookupRepo st.Repos name = some r →
      addRepo st name path = (st, [.logDuplicate name])) := by
  constructor
  · intro st ms h
    exact repoKeys_nodup_run ms st h
  · intro st name path r hl
    simp [addRepo, hl]

/-- Witness for C4: a duplicate `AddRepo` on a one-entry directory is a
no-op, and a concrete command sequence keeps keys duplicate-free. -/
theorem registry_unique_and_duplicate_noop_witness :
    (repoKeys (runRegistry ⟨[]⟩
        [.addRepo "a" "/p", .addRepo "a" "/q", .addRepo "b" "/r"])).Nodup ∧
    addRepo ⟨[("a", NewRepoActor "a" "/p")]⟩ "a" "/q"
      = (⟨[("a", NewRepoActor "a" "/p")]⟩, [.logDuplicate "a"]) :=
  ⟨registry_unique_and_duplicate_noop.1 ⟨[]⟩
     [.addRepo "a" "/p", .addRepo "a" "/q", .addRepo "b" "/r"] List.nodup_nil,
   registry_unique_and_duplicate_noop.2 _ "a" "/q" (NewRepoActor "a" "/p")
     (lookupRepo_cons_self [] "a" (NewRepoActor "a" "/p"))⟩

/-- C5: when `name` is present, `RemoveRepo(name)` (i) emits, in program
order, the final `ReportCompletion`, the mailbox close, the directory
deletion and the log; (ii) leaves the directory without `name`, so a
subsequent `ToggleRepo(name)` or `ConfigureRepo(name)` takes the
not-found branch and changes nothing; (iii) a subsequent
`AddRepo(name, path2)` builds a brand-new worker `NewRepoActor name path2`
(`Active = true`, both guards `false`) whatever the removed worker's
fields were; and (iv) `RemoveRepo` on an absent name logs not-found and
changes nothing. -/
theorem registry_removal_finality (st : RegistryActor) (name : String) (r : RepoActor)
    (hl : lookupRepo st.Repos name = some r) :
    (removeRepo st name).2
      = [.sendToRepo name (.reportCompletion name), .closeMailbox name,
         .unregister name, .logRemoved name] ∧
    lookupRepo (removeRepo st name).1.Repos name = none ∧
    toggleRepo (removeRepo st name).1 name = ((removeRepo st name).1, [.logNotFound name]) ∧
    configureRepo (removeRepo st name).1 name
      = ((removeRepo st name).1, [.logNotFound name]) ∧
    (∀ path2 : String,
      lookupRepo (addRepo (removeRepo st name).1 name path2).1.Repos name
        = some (NewRepoActor name path2)) ∧
    (∀ st' : RegistryActor, ∀ other : String, lookupRepo st'.Repos other = none →
      removeRepo st' other = (st', [.logNotFound other])) := by
  have hgone : lookupRepo (removeRepo st name).1.Repos name = none := by
    simp only [removeRepo, hl]
    exact lookupRepo_filter_ne st.Repos name
  refine ⟨by simp [removeRepo, hl], hgone, by simp [toggleRepo, hgone],
    by simp [configureRepo, hgone], ?_, ?_⟩
  · intro path2
    simp only [addRepo, hgone]
    exact lookupRepo_cons_self _ name (NewRepoActor name path2)
  · intro st' other hnone
    simp [removeRepo, hnone]

/-- Witness for C5 on a concrete one-entry directory holding a worker
whose guards are all set, re-added at a new path. -/
theorem registry_removal_finality_witness :
    lookupRepo (addRepo (removeRepo
        ⟨[("a", { Name := "a", Path := "/p", Active := false, IsDocker := true,
                  HasPipeline := true })]⟩ "a").1 "a" "/q").1.Repos "a"
      = some (NewRepoActor "a" "/q") :=
  ((registry_removal_finality
      ⟨[("a", { Name := "a", Path := "/p", Active := false, IsDocker := true,
                HasPipeline := true })]⟩ "a"
      { Name := "a", Path := "/p", Active := false, IsDocker := true, HasPipeline := true }
      (lookupRepo_cons_self [] "a" _)).2.2.2.2.1) "/q"

/-- C6: `AddRepo(name, path)` for a fresh name constructs
`NewRepoActor name path` (` Active = true`, both guards `false`), makes it
visible to directory lookups, and produces exactly the event sequence
start-worker, register, log, send-`InitRepo` — in particular the
directory registration (index 1) happens strictly before the `InitRepo`
send (index 3). -/
theorem registry_add_registers_before_init (st : RegistryActor) (name path : String)
    (hl : lookupRepo st.Repos name = none) :
    NewRepoActor name path
      = { Name := name, Path := path, Active := true, IsDocker := false,
          HasPipeline := false } ∧
    lookupRepo (addRepo st name path).1.Repos name = some (NewRepoActor name path) ∧
    (addRepo st name path).2
      = [.startWorker name, .register name, .logAdded name,
         .sendToRepo name .initRepo] ∧
    (addRepo st name path).2[1]? = some (.register name) ∧
    (addRepo st name path).2[3]? = some (.sendToRepo name .initRepo) ∧
    (1 : Nat) < 3 := by
  refine ⟨rfl, ?_, by simp [addRepo, hl], by simp [addRepo, hl], by simp [addRepo, hl],
    by decide⟩
  simp only [addRepo, hl]
  exact lookupRepo_cons_self _ name (NewRepoActor name path)

/-- Witness for C6 at the empty directory. -/
theorem registry_add_registers_before_init_witness :
    (addRepo ⟨[]⟩ "a" "/p").2
      = [.startWorker "a", .register "a", .logAdded "a", .sendToRepo "a" .initRepo] :=
  (registry_add_registers_before_init ⟨[]⟩ "a" "/p" rfl).2.2.1

/-- `RegistryItem` (`registry/registry.go`); Go `time.Time` values are
modelled as `Nat` instants and the `*git.Repository` pointer as an
`Option` that `ListItems` always leaves `none` (nil placeholder).  The Go
field `Type` is `Type'` here because `Type` is reserved in Lean. -/
structure RegistryItem where
  ID : String
  Name : String
  Type' : String
  Status : String
  Path : String
  CreatedAt : Nat
  LastUpdated : Nat
  Enabled : Bool
  GitRepo : Option Unit
  HasDockerfile : Bool
deriving Repr, DecidableEq

/-- The item `RegistryActor.ListItems` builds for one worker; `now` is the
value of `time.Now()` at the call (the code uses it for both timestamps,
marked `// Placeholder`). -/
def listItem (now : Nat) (repo : RepoActor) : RegistryItem :=
  { ID := repo.Name, Name := repo.Name, Type' := "repository", Status := "active",
    Path := repo.Path, CreatedAt := now, LastUpdated := now, Enabled := repo.Active,
    GitRepo := none, HasDockerfile := repo.IsDocker }

/-- `RegistryActor.ListItems`: one `RegistryItem` per directory entry,
built under the mutex. -/
def ListItems (now : Nat) (st : RegistryActor) : List RegistryItem :=
  st.Repos.map fun p => listItem now p.2

/-- C10: for every registered worker, its `ListItems` entry carries the
fixed strings `Type = "repository"` and `Status = "active"` and the
call-time timestamp in both `CreatedAt` and `LastUpdated`, regardless of
the worker's state; only `Enabled` mirrors the `Active` flag and
`HasDockerfile` the `IsDocker` guard — so a worker toggled inactive still
lists with `Status = "active"` but `Enabled = false`. -/
theorem listItems_fixed_fields (now : Nat) (st : RegistryActor) (name : String)
    (repo : RepoActor) (hmem : (name, repo) ∈ st.Repos) :
    listItem now repo ∈ ListItems now st ∧
    (listItem now repo).Type' = "repository" ∧
    (listItem now repo).Status = "active" ∧
    (listItem now repo).CreatedAt = now ∧
    (listItem now repo).LastUpdated = now ∧
    (listItem now repo).Enabled = repo.Active ∧
    (listItem now repo).HasDockerfile = repo.IsDocker := by
  refine ⟨?_, rfl, rfl, rfl, rfl, rfl, rfl⟩
  exact List.mem_map.mpr ⟨(name, repo), hmem, rfl⟩

/-- Witness for C10: an inactive worker still lists with status
`"active"` while `Enabled` is `false`. -/
theorem listItems_fixed_fields_witness :
    (listItem 7 { freshRepo with Active := false }).Status = "active" ∧
    (listItem 7 { freshRepo with Active := false }).Enabled = false :=
  ⟨(listItems_fixed_fields 7 ⟨[("repoA", { freshRepo with Active := false })]⟩ "repoA"
      { freshRepo with Active := false } (List.mem_singleton.mpr rfl)).2.2.1,
   (listItems_fixed_fields 7 ⟨[("repoA", { freshRepo with Active := false })]⟩ "repoA"
      { freshRepo with Active := false } (List.mem_singleton.mpr rfl)).2.2.2.2.2.1⟩

/-- `CoordinatorActor` state: the dependency graph
`Graph map[string][]string` as an association list (Go maps are
unordered; theorems about the scan quantify over entry permutations) and
the completion set `Completed map[string]bool` as a membership list. -/
structure CoordinatorActor where
  Graph : List (String × List String)
  Completed : List String
deriving Repr, DecidableEq

/-- Go map-set assignment `Completed[name] = true`. -/
def insertCompleted (name : String) (completed : List String) : List String :=
  if name ∈ completed then completed else name :: completed

/-- The inner loop of `handleCompletion`: `allDepsMet` is true when every
dependency is in the completion set. -/
def depsMet (completed : List String) (deps : List String) : Prop :=
  ∀ d ∈ deps, d ∈ completed

instance (completed deps : List String) : Decidable (depsMet completed deps) :=
  List.decidableBAll _ deps

/-- Go map update `Graph[repo] = dependsOn`. -/
def updateGraph : List (String × List String) → String → List String →
    List (String × List String)
  | [], repo, deps => [(repo, deps)]
  | (k, v) :: rest, repo, deps =>
      if k = repo then (repo, deps) :: rest else (k, v) :: updateGraph rest repo deps

/-- `CoordinatorActor.AddDependency`: record `repo`'s prerequisite list in
the graph (under the coordinator's mutex); the completion set is not
touched. -/
def AddDependency (c : CoordinatorActor) (repo : String) (dependsOn : List String) :
    CoordinatorActor :=
  { c with Graph := updateGraph c.Graph repo dependsOn }

/-- The `for repo, deps := range c.Graph` scan of `handleCompletion`,
iterating the given entry list in order (a Go map range visits entries in
an unspecified order, so callers quantify over permutations).  An entry
already completed is skipped; an entry whose dependencies are all met is
sent `ConfigureDocker` and `ConfigurePipeline` and marked completed —
but the send `c.registry.Repos[repo].MsgChan <- ...` dereferences a nil
`*RepoActor` when `repo` is not in the registry directory, a panic
modelled as `none`. -/
def coordScan (registered : List String) :
    List (String × List String) → List String →
      Option (List String × List (String × RepoMsg))
  | [], completed => some (completed, [])
  | (repo, deps) :: rest, completed =>
      if repo ∈ completed then coordScan registered rest completed
      else if depsMet completed deps then
        if repo ∈ registered then
          match coordScan registered rest (insertCompleted repo completed) with
          | some (c, effs) =>
              some (c, (repo, .configureDocker) :: (repo, .configurePipeline) :: effs)
          | none => none
        else none
      else coordScan registered rest completed

/-- `CoordinatorActor.handleCompletion(msg)`: mark `msg.Name` completed,
then scan the graph once; `registered` is the set of names with live
workers in `c.registry.Repos`.  `none` models the process-aborting panic
described at `coordScan`. -/
def handleCompletion (registered : List String) (c : CoordinatorActor) (name : String) :
    Option (CoordinatorActor × List (String × RepoMsg)) :=
  match coordScan registered c.Graph (insertCompleted name c.Completed) with
  | some (comp, effs) => some ({ c with Completed := comp }, effs)
  | none => none

theorem mem_insertCompleted (x name : String) (completed : List String)
    (h : x ∈ completed) : x ∈ insertCompleted name completed := by
  unfold insertCompleted
  split
  · exact h
  · exact List.mem_cons_of_mem name h

theorem coordScan_mono (registered : List String)
    (entries : List (String × List String)) :
    ∀ (completed : List String) res,
      coordScan registered entries completed = some res →
      ∀ x ∈ completed, x ∈ res.1 := by
  induction entries with
  | nil =>
      intro completed res h x hx
      simp only [coordScan, Option.some.injEq] at h
      rw [← h]
      exact hx
  | cons p rest ih =>
      intro completed res h x hx
      obtain ⟨repo, deps⟩ := p
      by_cases h1 : repo ∈ completed
      · rw [coordScan, if_pos h1] at h
        exact ih completed res h x hx
      · by_cases h2 : depsMet completed deps
        · by_cases h3 : repo ∈ registered
          · rw [coordScan, if_neg h1, if_pos h2, if_pos h3] at h
            cases hrec : coordScan registered rest (insertCompleted repo completed) with
            | none => rw [hrec] at h; exact absurd h (by simp)
            | some r2 =>
                rw [hrec] at h
                obtain ⟨c2, e2⟩ := r2
                have hx2 := ih _ (c2, e2) hrec x (mem_insertCompleted x repo completed hx)
                have hres : res.1 = c2 := by
                  simp only [Option.some.injEq] at h
                  rw [← h]
                rw [hres]
                exact hx2
          · rw [coordScan, if_neg h1, if_pos h2, if_neg h3] at h
            exact absurd h (by simp)
        · rw [coordScan, if_neg h1, if_neg h2] at h
          exact ih completed res h x hx

/-- C9: the coordinator's completion set only grows: (i) whenever
`handleCompletion` returns (does not panic), every previously completed
name is still completed afterwards — nothing is ever removed and no name
goes back from done to not-done; (ii) `AddDependency` never touches the
completion set; (iii) marking an already-completed name
(`Completed[name] = true` on a present name) is a no-op on the set. -/
theorem coordinator_completed_monotone :
    (∀ (registered : List String) (c : CoordinatorActor) (name : String) res,
       handleCompletion registered c name = some res →
       ∀ x ∈ c.Completed, x ∈ res.1.Completed) ∧
    (∀ (c : CoordinatorActor) (repo : String) (deps : List String),
       (AddDependency c repo deps).Completed = c.Completed) ∧
    (∀ (name : String) (completed : List String), name ∈ completed →
       insertCompleted name completed = completed) := by
  refine ⟨?_, fun c repo deps => rfl, fun name completed h => by simp [insertCompleted, h]⟩
  intro registered c name res h x hx
  unfold handleCompletion at h
  cases hscan : coordScan registered c.Graph (insertCompleted name c.Completed) with
  | none => rw [hscan] at h; exact absurd h (by simp)
  | some r2 =>
      rw [hscan] at h
      obtain ⟨comp, effs⟩ := r2
      have hx2 := coordScan_mono registered c.Graph _ (comp, effs) hscan x
        (mem_insertCompleted x name c.Completed hx)
      have hres : res.1.Completed = comp := by
        simp only [Option.some.injEq] at h
        rw [← h]
      rw [hres]
      exact hx2

/-- Witness for C9: a concrete non-panicking completion event keeps the
previously completed name, `AddDependency` keeps the set, and re-marking
is a no-op. -/
theorem coordinator_completed_monotone_witness :
    "Z" ∈ (CoordinatorActor.mk [] ["Z"]).Completed ∧
    (∀ x ∈ (CoordinatorActor.mk [] ["Z"]).Completed,
       x ∈ (CoordinatorActor.mk [] (insertCompleted "A" ["Z"])).Completed) ∧
    (AddDependency (CoordinatorActor.mk [] ["Z"]) "B" ["A"]).Completed = ["Z"] ∧
    insertCompleted "Z" ["Z"] = ["Z"] :=
  ⟨List.mem_singleton.mpr rfl,
   fun x hx => coordinator_completed_monotone.1 [] (CoordinatorActor.mk [] ["Z"]) "A"
     (CoordinatorActor.mk [] (insertCompleted "A" ["Z"]), []) rfl x hx,
   coordinator_completed_monotone.2.1 (CoordinatorActor.mk [] ["Z"]) "B" ["A"],
   coordinator_completed_monotone.2.2 "Z" ["Z"] (List.mem_singleton.mpr rfl)⟩

/-- The dependency graph of claim C2: `{A: [], B: [A], C: [B]}`. -/
def demoGraph : List (String × List String) := [("A", []), ("B", ["A"]), ("C", ["B"])]

/-- Registry directory for the C2 scenario: A, B and C all have live
workers. -/
def demoRegistered : List String := ["A", "B", "C"]

/-- C2 counterexample: processing the single event `RepoCompleted(A)` on
graph `{A: [], B: [A], C: [B]}` with an empty completion set does NOT
leave the completion set at exactly `{A}` — the same single pass
auto-configures B (whose only prerequisite A is now met) and marks it
completed, and with this iteration order C as well.  The resulting set is
`{C, B, A}`, and in particular contains B. -/
theorem coordinator_single_event_cascades :
    handleCompletion demoRegistered ⟨demoGraph, []⟩ "A"
      = some (⟨demoGraph, ["C", "B", "A"]⟩,
          [("B", .configureDocker), ("B", .configurePipeline),
           ("C", .configureDocker), ("C", .configurePipeline)]) ∧
    "B" ∈ (["C", "B", "A"] : List String) ∧
    (["C", "B", "A"] : List String) ≠ ["A"] := by
  refine ⟨by decide, by decide, by decide⟩

/-- Whether, after the single event `RepoCompleted(A)` on the C2 graph
(iterated in the given entry order), the coordinator did not panic and
both A and B are in the completion set. -/
def marksAB (entries : List (String × List String)) : Bool :=
  match handleCompletion demoRegistered ⟨entries, []⟩ "A" with
  | some res => decide ("A" ∈ res.1.Completed) && decide ("B" ∈ res.1.Completed)
  | none => false

/-- C2 (amended): on graph `{A: [], B: [A], C: [B]}` with an empty
completion set, a single `RepoCompleted(A)` event marks BOTH A and B
completed (the scan auto-configures B and marks it done in the same
pass), for every iteration order of the graph's entries; whether C is
also marked in the same pass depends on the iteration order (it is
exactly when C's entry is scanned after B's), so C is guaranteed eligible
only once B is completed. -/
theorem coordinator_single_event_marks_A_and_B
    (entries : List (String × List String)) (h : entries.Perm demoGraph) :
    marksAB entries = true := by
  have h1 : entries ∈ demoGraph.permutations' := List.mem_permutations'.mpr h
  have h2 : demoGraph.permutations'
      = [[("A", []), ("B", ["A"]), ("C", ["B"])],
         [("B", ["A"]), ("A", []), ("C", ["B"])],
         [("B", ["A"]), ("C", ["B"]), ("A", [])],
         [("A", []), ("C", ["B"]), ("B", ["A"])],
         [("C", ["B"]), ("A", []), ("B", ["A"])],
         [("C", ["B"]), ("B", ["A"]), ("A", [])]] := by decide
  rw [h2] at h1
  simp only [List.mem_cons, List.not_mem_nil, or_false] at h1
  rcases h1 with rfl | rfl | rfl | rfl | rfl | rfl <;> decide

/-- Witness for C2 (amended), at the graph's own entry order. -/
theorem coordinator_single_event_marks_A_and_B_witness :
    marksAB demoGraph = true :=
  coordinator_single_event_marks_A_and_B demoGraph List.Perm.rfl

/-- C3: a graph entry for a name with no live worker (here `"X"`, while
only `"A"` is registered) whose prerequisites are trivially all met makes
`handleCompletion` dereference the nil `*RepoActor` in
`c.registry.Repos["X"].MsgChan <- ConfigureDocker{}` — a panic that
aborts the process (modelled `none`), contradicting the claim that
evaluation of a forward reference completes without a fatal error. -/
theorem coordinator_panics_on_unregistered_entry :
    handleCompletion ["A"] ⟨[("X", [])], []⟩ "A" = none := by decide

end GoMiddlewareRegistry
